import Mathlib

/-!
Verification of the native memory-manager layer of ixy.java
(`src/ixy/src/ixy/c/ixy.c` and `src/memory/src/ixy/c/ixy.c`).

The C layer is embedded shallowly:
* process memory is a byte-addressed map `Mem := Nat → Nat`, one byte per cell;
  the typed accessors (`c_get_byte` … `c_put_long`) read and write
  little-endian byte groups, exactly as the `jbyte*`/`jshort*`/`jint*`/`jlong*`
  dereferences do on the little-endian targets of the JNI code; values are the
  w-bit two's-complement bit patterns, represented as naturals below `2 ^ w`;
* system calls (`open`, `ftruncate`, `mmap`, `mlock`, `malloc`) become explicit
  outcome parameters collected in `OsEnv`, so each allocation function is a
  pure function of the outcomes the operating system produced;
* the files the code parses (`/etc/mtab`, `/proc/meminfo`,
  `/proc/self/pagemap`) become explicit inputs: a list of mount entries, a
  list of parsed line attempts, and a byte map with an access position.
-/

namespace Ixy

/-- Byte-addressed process memory: address to cell contents.  The C code only
ever stores byte-sized values in a cell; reads reduce the cell mod 256. -/
abbrev Mem := Nat → Nat

/-- Write one byte cell. -/
def writeByte (m : Mem) (a v : Nat) : Mem := fun x => if x = a then v else m x

/-- Read `n` bytes at `a`, little-endian, as one natural number. -/
def loadBytesLE (m : Mem) (a : Nat) : Nat → Nat
  | 0 => 0
  | n + 1 => m a % 256 + 256 * loadBytesLE m (a + 1) n

/-- Store the `n` low-order bytes of `v` at `a`, little-endian. -/
def storeBytesLE (m : Mem) (a : Nat) : Nat → Nat → Mem
  | 0, _ => m
  | n + 1, v => storeBytesLE (writeByte m a (v % 256)) (a + 1) n (v / 256)

/-! ### Typed accessors, `src/memory/src/ixy/c/ixy.c` lines 318-678

Each JNI export `Java_de_tum_in_net_ixy_memory_JniMemoryManager_c_1<op>` is
embedded under the short name `c_<op>`.  In that file a `_volatile` variant
has exactly the body of its plain counterpart, with the pointer
`volatile`-qualified; under sequential semantics the qualifier has no effect
on the performed reads and writes, so the embedded bodies coincide. -/

def c_get_byte (m : Mem) (a : Nat) : Nat := loadBytesLE m a 1

def c_get_byte_volatile (m : Mem) (a : Nat) : Nat := loadBytesLE m a 1

def c_put_byte (m : Mem) (a v : Nat) : Mem := storeBytesLE m a 1 v

def c_put_byte_volatile (m : Mem) (a v : Nat) : Mem := storeBytesLE m a 1 v

/-- `val = *addr; *addr = value; return val` at byte width: the returned old
value together with the memory after the write. -/
def c_get_and_put_byte (m : Mem) (a v : Nat) : Nat × Mem :=
  (loadBytesLE m a 1, storeBytesLE m a 1 v)

def c_get_and_put_byte_volatile (m : Mem) (a v : Nat) : Nat × Mem :=
  (loadBytesLE m a 1, storeBytesLE m a 1 v)

/-- `*addr += value` at byte width; the C sum is converted back to `jbyte`,
i.e. reduced mod `2 ^ 8`. -/
def c_add_byte (m : Mem) (a v : Nat) : Mem :=
  storeBytesLE m a 1 ((loadBytesLE m a 1 + v) % 2 ^ 8)

def c_add_byte_volatile (m : Mem) (a v : Nat) : Mem :=
  storeBytesLE m a 1 ((loadBytesLE m a 1 + v) % 2 ^ 8)

/-- `val = *addr; *addr += value; return val` at byte width. -/
def c_get_and_add_byte (m : Mem) (a v : Nat) : Nat × Mem :=
  (loadBytesLE m a 1, storeBytesLE m a 1 ((loadBytesLE m a 1 + v) % 2 ^ 8))

def c_get_and_add_byte_volatile (m : Mem) (a v : Nat) : Nat × Mem :=
  (loadBytesLE m a 1, storeBytesLE m a 1 ((loadBytesLE m a 1 + v) % 2 ^ 8))

/-- `val = *addr + value; *addr = val; return val` at byte width. -/
def c_add_and_get_byte (m : Mem) (a v : Nat) : Nat × Mem :=
  ((loadBytesLE m a 1 + v) % 2 ^ 8,
    storeBytesLE m a 1 ((loadBytesLE m a 1 + v) % 2 ^ 8))

def c_add_and_get_byte_volatile (m : Mem) (a v : Nat) : Nat × Mem :=
  ((loadBytesLE m a 1 + v) % 2 ^ 8,
    storeBytesLE m a 1 ((loadBytesLE m a 1 + v) % 2 ^ 8))

def c_get_short (m : Mem) (a : Nat) : Nat := loadBytesLE m a 2

def c_get_short_volatile (m : Mem) (a : Nat) : Nat := loadBytesLE m a 2

def c_put_short (m : Mem) (a v : Nat) : Mem := storeBytesLE m a 2 v

def c_put_short_volatile (m : Mem) (a v : Nat) : Mem := storeBytesLE m a 2 v

def c_get_and_put_short (m : Mem) (a v : Nat) : Nat × Mem :=
  (loadBytesLE m a 2, storeBytesLE m a 2 v)

def c_get_and_put_short_volatile (m : Mem) (a v : Nat) : Nat × Mem :=
  (loadBytesLE m a 2, storeBytesLE m a 2 v)

def c_add_short (m : Mem) (a v : Nat) : Mem :=
  storeBytesLE m a 2 ((loadBytesLE m a 2 + v) % 2 ^ 16)

def c_add_short_volatile (m : Mem) (a v : Nat) : Mem :=
  storeBytesLE m a 2 ((loadBytesLE m a 2 + v) % 2 ^ 16)

def c_get_and_add_short (m : Mem) (a v : Nat) : Nat × Mem :=
  (loadBytesLE m a 2, storeBytesLE m a 2 ((loadBytesLE m a 2 + v) % 2 ^ 16))

def c_get_and_add_short_volatile (m : Mem) (a v : Nat) : Nat × Mem :=
  (loadBytesLE m a 2, storeBytesLE m a 2 ((loadBytesLE m a 2 + v) % 2 ^ 16))

def c_add_and_get_short (m : Mem) (a v : Nat) : Nat × Mem :=
  ((loadBytesLE m a 2 + v) % 2 ^ 16,
    storeBytesLE m a 2 ((loadBytesLE m a 2 + v) % 2 ^ 16))

def c_add_and_get_short_volatile (m : Mem) (a v : Nat) : Nat × Mem :=
  ((loadBytesLE m a 2 + v) % 2 ^ 16,
    storeBytesLE m a 2 ((loadBytesLE m a 2 + v) % 2 ^ 16))

def c_get_int (m : Mem) (a : Nat) : Nat := loadBytesLE m a 4

def c_get_int_volatile (m : Mem) (a : Nat) : Nat := loadBytesLE m a 4

def c_put_int (m : Mem) (a v : Nat) : Mem := storeBytesLE m a 4 v

def c_put_int_volatile (m : Mem) (a v : Nat) : Mem := storeBytesLE m a 4 v

def c_get_and_put_int (m : Mem) (a v : Nat) : Nat × Mem :=
  (loadBytesLE m a 4, storeBytesLE m a 4 v)

def c_get_and_put_int_volatile (m : Mem) (a v : Nat) : Nat × Mem :=
  (loadBytesLE m a 4, storeBytesLE m a 4 v)

def c_add_int (m : Mem) (a v : Nat) : Mem :=
  storeBytesLE m a 4 ((loadBytesLE m a 4 + v) % 2 ^ 32)

def c_add_int_volatile (m : Mem) (a v : Nat) : Mem :=
  storeBytesLE m a 4 ((loadBytesLE m a 4 + v) % 2 ^ 32)

def c_get_and_add_int (m : Mem) (a v : Nat) : Nat × Mem :=
  (loadBytesLE m a 4, storeBytesLE m a 4 ((loadBytesLE m a 4 + v) % 2 ^ 32))

def c_get_and_add_int_volatile (m : Mem) (a v : Nat) : Nat × Mem :=
  (loadBytesLE m a 4, storeBytesLE m a 4 ((loadBytesLE m a 4 + v) % 2 ^ 32))

def c_add_and_get_int (m : Mem) (a v : Nat) : Nat × Mem :=
  ((loadBytesLE m a 4 + v) % 2 ^ 32,
    storeBytesLE m a 4 ((loadBytesLE m a 4 + v) % 2 ^ 32))

def c_add_and_get_int_volatile (m : Mem) (a v : Nat) : Nat × Mem :=
  ((loadBytesLE m a 4 + v) % 2 ^ 32,
    storeBytesLE m a 4 ((loadBytesLE m a 4 + v) % 2 ^ 32))

def c_get_long (m : Mem) (a : Nat) : Nat := loadBytesLE m a 8

def c_get_long_volatile (m : Mem) (a : Nat) : Nat := loadBytesLE m a 8

def c_put_long (m : Mem) (a v : Nat) : Mem := storeBytesLE m a 8 v

def c_put_long_volatile (m : Mem) (a v : Nat) : Mem := storeBytesLE m a 8 v

def c_get_and_put_long (m : Mem) (a v : Nat) : Nat × Mem :=
  (loadBytesLE m a 8, storeBytesLE m a 8 v)

def c_get_and_put_long_volatile (m : Mem) (a v : Nat) : Nat × Mem :=
  (loadBytesLE m a 8, storeBytesLE m a 8 v)

def c_add_long (m : Mem) (a v : Nat) : Mem :=
  storeBytesLE m a 8 ((loadBytesLE m a 8 + v) % 2 ^ 64)

def c_add_long_volatile (m : Mem) (a v : Nat) : Mem :=
  storeBytesLE m a 8 ((loadBytesLE m a 8 + v) % 2 ^ 64)

def c_get_and_add_long (m : Mem) (a v : Nat) : Nat × Mem :=
  (loadBytesLE m a 8, storeBytesLE m a 8 ((loadBytesLE m a 8 + v) % 2 ^ 64))

def c_get_and_add_long_volatile (m : Mem) (a v : Nat) : Nat × Mem :=
  (loadBytesLE m a 8, storeBytesLE m a 8 ((loadBytesLE m a 8 + v) % 2 ^ 64))

def c_add_and_get_long (m : Mem) (a v : Nat) : Nat × Mem :=
  ((loadBytesLE m a 8 + v) % 2 ^ 64,
    storeBytesLE m a 8 ((loadBytesLE m a 8 + v) % 2 ^ 64))

def c_add_and_get_long_volatile (m : Mem) (a v : Nat) : Nat × Mem :=
  ((loadBytesLE m a 8 + v) % 2 ^ 64,
    storeBytesLE m a 8 ((loadBytesLE m a 8 + v) % 2 ^ 64))

/-! ### Fenced accessors, `src/ixy/src/ixy/c/ixy.c` lines 594-680

In the `ixy` module the `_volatile` accessors additionally execute
`__asm__ volatile ("" : : : "memory")`, a compiler memory fence, before the
access.  Under sequential (single-thread, no-reordering) semantics the fence
does not change the memory state; it is embedded as the identity. -/

def memoryFence (m : Mem) : Mem := m

def ixy_c_get_byte_volatile (m : Mem) (a : Nat) : Nat :=
  loadBytesLE (memoryFence m) a 1

def ixy_c_put_byte_volatile (m : Mem) (a v : Nat) : Mem :=
  storeBytesLE (memoryFence m) a 1 v

def ixy_c_get_short_volatile (m : Mem) (a : Nat) : Nat :=
  loadBytesLE (memoryFence m) a 2

def ixy_c_put_short_volatile (m : Mem) (a v : Nat) : Mem :=
  storeBytesLE (memoryFence m) a 2 v

def ixy_c_get_int_volatile (m : Mem) (a : Nat) : Nat :=
  loadBytesLE (memoryFence m) a 4

def ixy_c_put_int_volatile (m : Mem) (a v : Nat) : Mem :=
  storeBytesLE (memoryFence m) a 4 v

def ixy_c_get_long_volatile (m : Mem) (a : Nat) : Nat :=
  loadBytesLE (memoryFence m) a 8

def ixy_c_put_long_volatile (m : Mem) (a v : Nat) : Mem :=
  storeBytesLE (memoryFence m) a 8 v

/-! ### Bulk copies, `src/memory/src/ixy/c/ixy.c` lines 666-678 -/

/-- `c_1copy`: `memcpy((void *) dst, (void *) src, size)`.  `memcpy` requires
non-overlapping ranges (overlap is undefined behaviour); it is embedded with
snapshot semantics: every byte of the destination range receives the
corresponding byte of the source range as it was before the call. -/
def c_copy (m : Mem) (src size dst : Nat) : Mem :=
  fun x => if dst ≤ x ∧ x < dst + size then m (src + (x - dst)) else m x

/-- `c_1copy_1volatile`: the byte-at-a-time ascending loop
`while (size--) *(d++) = *(s++);` over `volatile char` pointers. -/
def c_copy_volatile (m : Mem) (src : Nat) : Nat → Nat → Mem
  | 0, _ => m
  | size + 1, dst => c_copy_volatile (writeByte m dst (m src)) (src + 1) size (dst + 1)

/-! ### Allocation, `src/ixy/src/ixy/c/ixy.c` lines 34-330 and 443-522

The outcome of each operating-system call made by an allocation function is
an explicit input.  POSIX reports `open` failure as descriptor `-1` (with `0`
a perfectly valid descriptor), `ftruncate`/`mlock` failure as a non-zero
return, `mmap` failure as `MAP_FAILED` (embedded as `none`), and `malloc`
failure as a null pointer (embedded as `none`). -/

structure OsEnv where
  openRes : Int
  ftruncateRes : Int
  mmapRes : Option Nat
  mlockRes : Int
  closeRes : Int
  unlinkRes : Int
  mallocRes : Option Nat
deriving DecidableEq

/-- `Java_de_tum_in_net_ixy_memory_FastestMemoryManager_c_1allocate`
(`src/ixy`, lines 37-89).  The returned `jlong` is the mapped address, with
`0` doubling as the failure signal.  Note the descriptor test is `if(!fd)`:
it fires exactly when `open` returned the valid descriptor `0`, and lets the
true error value `-1` pass.  `mlock`, `close` and `unlink` failures are only
logged. -/
def fastest_c_allocate (os : OsEnv) : Nat :=
  if os.openRes = 0 then 0
  else if os.ftruncateRes ≠ 0 then 0
  else
    match os.mmapRes with
    | none => 0
    | some va => va

/-- `Java_de_tum_in_net_ixy_memory_JniMemoryManager_c_1allocate`
(`src/ixy`, lines 443-522).  `size` is the length handed to `ftruncate` and
`mmap`; the returned `jlong` is the address, with `0` doubling as the failure
signal on every error path (including pin failure after a successful
`malloc`).  Here the descriptor test is `fd == -1`, the correct POSIX check. -/
def jni_c_allocate (os : OsEnv) (size : Nat) (huge lock : Bool) : Nat :=
  if huge = false then
    match os.mallocRes with
    | none => 0
    | some addr => if lock = true ∧ os.mlockRes ≠ 0 then 0 else addr
  else
    if os.openRes = -1 then 0
    else if os.ftruncateRes ≠ 0 then 0
    else
      match os.mmapRes with
      | none => 0
      | some va => if lock = true ∧ os.mlockRes ≠ 0 then 0 else va

/-- `Java_de_tum_in_net_ixy_memory_SmartUnsafeMemoryManager_c_1allocate`
(`src/ixy`, lines 191-270): same structure as `jni_c_allocate`, in particular
pin failure after a successful `malloc` also returns `0`. -/
def smart_c_allocate (os : OsEnv) (size : Nat) (huge lock : Bool) : Nat :=
  if huge = false then
    match os.mallocRes with
    | none => 0
    | some addr => if lock = true ∧ os.mlockRes ≠ 0 then 0 else addr
  else
    if os.openRes = -1 then 0
    else if os.ftruncateRes ≠ 0 then 0
    else
      match os.mmapRes with
      | none => 0
      | some va => if lock = true ∧ os.mlockRes ≠ 0 then 0 else va

/-! ### The spec-level allocator contract (section 4.2 of the design) -/

inductive AllocError where
  | unsupported
  | contiguityUnavailable
  | allocationFailed
deriving DecidableEq

structure Region where
  base : Nat
  length : Nat
deriving DecidableEq

/-- Modelled from the spec: the managed (Java) caller layer of the repository
is not under `src/`; per the design it "rounds `size` up to the next multiple
of the huge-page size" before invoking the native allocation. -/
def roundToHuge (size hps : Nat) : Nat := ((size + hps - 1) / hps) * hps

/-- Modelled from the spec: the huge-page `allocate(size, require_contiguous)`
contract of section 4.2.  The managed caller layer (not under `src/`) fails
fast with `Unsupported` when the cached huge-page size is `≤ 0`, rounds the
size up, guards contiguity against the rounded size, and then invokes the
native `c_allocate` (embedded from `src/ixy/src/ixy/c/ixy.c`) with the
rounded size, which is the length handed to `ftruncate` and `mmap` — hence
the backing length of the produced region. -/
def allocate (hps : Int) (os : OsEnv) (size : Nat) (contiguous lock : Bool) :
    Except AllocError Region :=
  if hps ≤ 0 then .error .unsupported
  else
    let rounded := roundToHuge size hps.toNat
    if contiguous = true ∧ hps.toNat < rounded then .error .contiguityUnavailable
    else
      let addr := jni_c_allocate os rounded true lock
      if addr = 0 then .error .allocationFailed
      else .ok ⟨addr, rounded⟩

/-! ### Huge-page identifiers (`hugepageid`, `src/ixy` lines 34-46)

`static unsigned int hugepageid` starts at `0`; every huge-page allocation
executes `__atomic_fetch_add(&hugepageid, 1, __ATOMIC_SEQ_CST)` and embeds
`getpid()` and the fetched value in the backing-file name
`"%s/ixy-%d-%d"`. -/

/-- Value of the `unsigned int` counter after `n` fetch-adds (wraps at
`2 ^ 32`). -/
def counterAfter : Nat → Nat
  | 0 => 0
  | n + 1 => (counterAfter n + 1) % 2 ^ 32

/-- The identifier drawn by the `n`-th huge-page allocation of the process
(0-indexed): the counter value its fetch-add returns. -/
def idOfAlloc (n : Nat) : Nat := counterAfter n

/-- The value `snprintf`'s `"%d"` prints for an `unsigned int` argument: the
argument reinterpreted as a signed 32-bit integer. -/
def int32Of (id : Nat) : Int :=
  if id < 2 ^ 31 then (id : Int) else (id : Int) - 2 ^ 32

/-- The backing-file name built by allocation `n`: `"%s/ixy-%d-%d"` applied to
the mount prefix, `getpid()` and the drawn identifier.  The rendered string is
determined by and determines this triple, so it is embedded as the triple. -/
def hugepagePath (mnt : String) (pid : Int) (n : Nat) : String × Int × Int :=
  (mnt, pid, int32Of (idOfAlloc n))

/-! ### Platform page facts, `Java_..._JniMemoryManager_c_1hugepage_1size`
(`src/ixy` lines 367-441, `src/memory` lines 62-131)

Phase 1 scans `/etc/mtab` (embedded as `Option (List Mntent)`, `none` when
`fopen` fails) for a `hugetlbfs` mount at `/mnt/huge`; a failed open, a
`NULL` mount entry (which is also how the scan ends without a match) and an
absent mount all return `-1`.  Phase 2 scans `/proc/meminfo` (embedded as an
optional list of parsed line attempts, where `none` stands for a line on
which `fscanf` did not produce 3 items) for the `Hugepagesize:` field. -/

structure Mntent where
  mnt_fsname : String
  mnt_dir : String
  mnt_type : String
deriving DecidableEq

def isHugetlbfsMount (e : Mntent) : Bool :=
  e.mnt_type == "hugetlbfs" && e.mnt_fsname == "hugetlbfs" && e.mnt_dir == "/mnt/huge"

def mountFound (l : List Mntent) : Bool := l.any isHugetlbfsMount

/-- First `/proc/meminfo` line that parsed to 3 items with key
`"Hugepagesize:"`; yields its value and unit suffix. -/
def findHugeLine : List (Option (String × Int × String)) → Option (Int × String)
  | [] => none
  | none :: rest => findHugeLine rest
  | some (k, v, mult) :: rest =>
    if k == "Hugepagesize:" then some (v, mult) else findHugeLine rest

/-- The `switch (multiplier[0])` scaling: `G`, `M`, `k` multiply; any other
leading character (the `B` case is commented out in the source) leaves the
value unchanged. -/
def applyMultiplier (v : Int) (mult : String) : Int :=
  match mult.data with
  | [] => v
  | c :: _ =>
    if c = 'G' then v * 1073741824
    else if c = 'M' then v * 1048576
    else if c = 'k' then v * 1024
    else v

def c_hugepage_size (mtab : Option (List Mntent))
    (meminfo : Option (List (Option (String × Int × String)))) : Int :=
  match mtab with
  | none => -1
  | some entries =>
    if mountFound entries = false then -1
    else
      match meminfo with
      | none => 0
      | some lines =>
        match findHugeLine lines with
        | none => 0
        | some (v, mult) => applyMultiplier v mult

/-! ### Address translation, `Java_..._JniMemoryManager_c_1virt2phys`
(`src/ixy` lines 697-745, `src/memory` lines 275-314)

The pagemap file `/proc/self/pagemap` is embedded as a byte map `pm : Mem`;
`lseek` to `page * sizeof(void *)` followed by an 8-byte `read` is an 8-byte
little-endian load at that offset. -/

/-- `sizeof(void *)` on the 64-bit targets
(`Java_..._JniMemoryManager_c_1address_1size`). -/
def address_size : Nat := 8

/-- The 64-bit pagemap entry read after seeking to byte offset `pos`. -/
def pagemapEntry (pm : Mem) (pos : Nat) : Nat := loadBytesLE pm pos 8

/-- Success-path value of `c_1virt2phys` in `src/ixy`: page index by
division, entry at `page * sizeof(void *)`, frame masked with
`0x7fffffffffffff`, offset by `address % pagesize`; the final cast to `jlong`
keeps the low 64 bits. -/
def c_virt2phys (pm : Mem) (pagesize addr : Nat) : Nat :=
  (((pagemapEntry pm (addr / pagesize * address_size)) &&& 0x7fffffffffffff)
      * pagesize + addr % pagesize) % 2 ^ 64

/-- Success-path value of `c_1virt2phys` in `src/memory`: identical except the
offset is computed as `address & (pagesize - 1)`. -/
def c_virt2phys_mem (pm : Mem) (pagesize addr : Nat) : Nat :=
  (((pagemapEntry pm (addr / pagesize * address_size)) &&& 0x7fffffffffffff)
      * pagesize + (addr &&& (pagesize - 1))) % 2 ^ 64

/-- `c_1virt2phys` of `src/ixy` with its error paths: the descriptor test is
`fd == -1` (correct), and every failure returns `0`. -/
def c_virt2phys_run (openRes seekRes readRes : Int) (pm : Mem)
    (pagesize addr : Nat) : Nat :=
  if openRes = -1 then 0
  else if seekRes = -1 then 0
  else if readRes = -1 then 0
  else c_virt2phys pm pagesize addr

/-- `c_1virt2phys` of `src/memory` with its error paths: the descriptor test
is `if(!fd)`, which fires on the valid descriptor `0` and lets the error value
`-1` pass; every failure returns `0`. -/
def c_virt2phys_mem_run (openRes seekRes readRes : Int) (pm : Mem)
    (pagesize addr : Nat) : Nat :=
  if openRes = 0 then 0
  else if seekRes = -1 then 0
  else if readRes = -1 then 0
  else c_virt2phys_mem pm pagesize addr

/-! ## Basic lemmas about the byte-memory model -/

theorem writeByte_ne (m : Mem) (a v x : Nat) (h : x ≠ a) :
    writeByte m a v x = m x := by
  simp [writeByte, h]

theorem writeByte_eq (m : Mem) (a v : Nat) : writeByte m a v a = v := by
  simp [writeByte]

theorem storeBytesLE_lt (m : Mem) (a n v x : Nat) (h : x < a) :
    storeBytesLE m a n v x = m x := by
  induction n generalizing m a v with
  | zero => rfl
  | succ k ih =>
    have hx : x < a + 1 := Nat.lt_succ_of_lt h
    rw [storeBytesLE, ih _ _ _ hx, writeByte_ne]
    exact Nat.ne_of_lt h

theorem load_store_roundtrip (m : Mem) (a n v : Nat) :
    loadBytesLE (storeBytesLE m a n v) a n = v % 256 ^ n := by
  induction n generalizing m a v with
  | zero => simp [loadBytesLE, storeBytesLE, Nat.mod_one]
  | succ k ih =>
    rw [storeBytesLE, loadBytesLE]
    have hlow : storeBytesLE (writeByte m a (v % 256)) (a + 1) k (v / 256) a
        = v % 256 := by
      rw [storeBytesLE_lt _ _ _ _ _ (Nat.lt_succ_self a), writeByte_eq]
    have hmm : v % 256 % 256 = v % 256 := Nat.mod_mod_of_dvd v dvd_rfl
    rw [hlow, ih, hmm, pow_succ, mul_comm (256 ^ k) 256, Nat.mod_mul]

/-! ## Rounding to huge-page multiples -/

theorem roundToHuge_eq_ceil (s h : Nat) : roundToHuge s h = (s ⌈/⌉ h) * h := by
  rw [roundToHuge, Nat.ceilDiv_eq_add_pred_div]

theorem roundToHuge_mod (s h : Nat) : roundToHuge s h % h = 0 :=
  Nat.mul_mod_left _ _

theorem le_roundToHuge (s h : Nat) (hh : 0 < h) : s ≤ roundToHuge s h := by
  rw [roundToHuge_eq_ceil, mul_comm]
  simpa [smul_eq_mul] using (le_smul_ceilDiv hh : s ≤ h • (s ⌈/⌉ h))

theorem roundToHuge_min (s h mlen : Nat) (hh : 0 < h) (hmod : mlen % h = 0)
    (hle : s ≤ mlen) : roundToHuge s h ≤ mlen := by
  rw [roundToHuge_eq_ceil]
  obtain ⟨k, hk⟩ := Nat.dvd_of_mod_eq_zero hmod
  subst hk
  have hq : s ⌈/⌉ h ≤ k := (ceilDiv_le_iff_le_smul hh).2 (by simpa [smul_eq_mul] using hle)
  calc (s ⌈/⌉ h) * h ≤ k * h := Nat.mul_le_mul_right _ hq
    _ = h * k := mul_comm _ _

/-- C1: for every requested size, a huge-page allocation produces a backing
region whose length is the smallest multiple of the huge-page size that is at
least the requested size; in particular requesting 100 bytes with
`huge_page_size = 2097152` succeeds (when the operating-system calls succeed)
with a region of length 2097152. -/
theorem hugepage_allocate_length_least_multiple :
    (∀ (hps : Int) (os : OsEnv) (size : Nat) (lock : Bool) (r : Region),
        0 < hps →
        allocate hps os size false lock = .ok r →
        r.length % hps.toNat = 0 ∧ size ≤ r.length ∧
          ∀ mlen, mlen % hps.toNat = 0 → size ≤ mlen → r.length ≤ mlen) ∧
    allocate 2097152 ⟨3, 0, some 4096, 0, 0, 0, some 4096⟩ 100 false false =
      .ok ⟨4096, 2097152⟩ := by
  constructor
  · intro hps os size lock r hpos hok
    have ht : 0 < hps.toNat := by omega
    unfold allocate at hok
    rw [if_neg (by omega : ¬ hps ≤ 0)] at hok
    simp only [Bool.false_eq_true, false_and, if_false] at hok
    by_cases ha : jni_c_allocate os (roundToHuge size hps.toNat) true lock = 0
    · rw [if_pos ha] at hok
      exact absurd hok (by simp)
    · rw [if_neg ha] at hok
      have hr : r = ⟨jni_c_allocate os (roundToHuge size hps.toNat) true lock,
          roundToHuge size hps.toNat⟩ := by
        cases hok
        rfl
      subst hr
      exact ⟨roundToHuge_mod _ _, le_roundToHuge _ _ ht,
        fun mlen h1 h2 => roundToHuge_min _ _ _ ht h1 h2⟩
  · rfl

theorem hugepage_allocate_length_least_multiple_witness :
    0 < (2097152 : Int) ∧
      (⟨4096, 2097152⟩ : Region).length % (2097152 : Int).toNat = 0 ∧
      100 ≤ (⟨4096, 2097152⟩ : Region).length := by
  have h := hugepage_allocate_length_least_multiple.1 2097152
    ⟨3, 0, some 4096, 0, 0, 0, some 4096⟩ 100 false ⟨4096, 2097152⟩
    (by norm_num) hugepage_allocate_length_least_multiple.2
  exact ⟨by norm_num, h.1, h.2.1⟩

/-- C2: every allocation request with the contiguity flag set whose rounded
size exceeds one huge page fails with `ContiguityUnavailable` and never
returns an address. -/
theorem contiguous_oversize_fails :
    ∀ (hps : Int) (os : OsEnv) (size : Nat) (lock : Bool),
      0 < hps → hps.toNat < roundToHuge size hps.toNat →
      allocate hps os size true lock = .error .contiguityUnavailable := by
  intro hps os size lock hpos hover
  unfold allocate
  rw [if_neg (by omega : ¬ hps ≤ 0), if_pos ⟨rfl, hover⟩]

theorem contiguous_oversize_fails_witness :
    allocate 2097152 ⟨3, 0, some 4096, 0, 0, 0, some 4096⟩ 4194304 true false =
      .error .contiguityUnavailable :=
  contiguous_oversize_fails 2097152 _ 4194304 false (by norm_num) (by decide)

/-- C3 counterexample: in `FastestMemoryManager_c_1allocate` the descriptor
test `if(!fd)` treats the valid descriptor `0` as failure — with every
operating-system call succeeding and `open` returning descriptor `0` the
function returns the failure value `0` — while `open`'s true error value `-1`
is waved through to a "successful" address.  Both failure paths signal by the
plain value `0` with no typed error. -/
theorem zero_sentinel_fd_zero_counterexample :
    fastest_c_allocate ⟨0, 0, some 4096, 0, 0, 0, none⟩ = 0 ∧
    fastest_c_allocate ⟨-1, 0, some 4096, 0, 0, 0, none⟩ = 4096 :=
  ⟨rfl, rfl⟩

/-- C3 amended: failures are signaled by returning the plain value `0` (also
a conceivable success value) with no typed error; `FastestMemoryManager`'s
`c_1allocate` and the `memory` module's `c_1virt2phys` treat the valid
descriptor `0` as failure (`if(!fd)`), with the former accepting `open`'s
error value `-1` as success, while `JniMemoryManager`'s `c_1allocate`
performs the correct `fd == -1` check. -/
theorem failure_signaling_amended :
    (∀ os : OsEnv, os.openRes = 0 → fastest_c_allocate os = 0) ∧
    (∀ (os : OsEnv) (va : Nat), os.openRes = -1 → os.ftruncateRes = 0 →
        os.mmapRes = some va → fastest_c_allocate os = va) ∧
    (∀ (os : OsEnv) (size : Nat) (lock : Bool), os.openRes = -1 →
        jni_c_allocate os size true lock = 0) ∧
    (∀ (seekRes readRes : Int) (pm : Mem) (pagesize addr : Nat),
        c_virt2phys_mem_run 0 seekRes readRes pm pagesize addr = 0) ∧
    (∀ (os : OsEnv) (size : Nat) (lock : Bool), os.mallocRes = none →
        jni_c_allocate os size false lock = 0) := by
  refine ⟨fun os h => ?_, fun os va h1 h2 h3 => ?_, fun os size lock h => ?_,
    fun seekRes readRes pm pagesize addr => ?_, fun os size lock h => ?_⟩
  · rw [fastest_c_allocate, if_pos h]
  · rw [fastest_c_allocate, if_neg (by rw [h1]; decide), h2, h3]
    simp
  · rw [jni_c_allocate, if_neg (by simp), if_pos h]
  · rw [c_virt2phys_mem_run, if_pos rfl]
  · rw [jni_c_allocate, if_pos rfl, h]

theorem failure_signaling_amended_witness :
    fastest_c_allocate ⟨0, 0, some 8192, 0, 0, 0, none⟩ = 0 :=
  failure_signaling_amended.1 ⟨0, 0, some 8192, 0, 0, 0, none⟩ rfl

/-- C9 counterexample: in `JniMemoryManager_c_1allocate`'s standard (non-huge)
path with pinning requested, a successful `malloc` (address 81920) followed by
a failed `mlock` returns `0` — the very same value as a failed `malloc` — so
the allocated address is discarded and no distinct pin-failure outcome exists. -/
theorem pin_failure_counterexample :
    jni_c_allocate ⟨3, 0, some 4096, 1, 0, 0, some 81920⟩ 64 false true = 0 ∧
    jni_c_allocate ⟨3, 0, some 4096, 1, 0, 0, none⟩ 64 false true = 0 :=
  ⟨rfl, rfl⟩

/-- C9 amended: in every standard allocation with pinning requested where the
heap allocation succeeds but pinning fails, both `JniMemoryManager` and
`SmartUnsafeMemoryManager` return `0` — indistinguishable from plain
allocation failure — and the successfully allocated address is discarded. -/
theorem pin_failure_returns_zero_amended :
    ∀ (os : OsEnv) (size addr : Nat),
      os.mallocRes = some addr → os.mlockRes ≠ 0 →
      jni_c_allocate os size false true = 0 ∧
      smart_c_allocate os size false true = 0 := by
  intro os size addr hmalloc hmlock
  constructor
  · rw [jni_c_allocate, if_pos rfl, hmalloc]
    exact if_pos ⟨rfl, hmlock⟩
  · rw [smart_c_allocate, if_pos rfl, hmalloc]
    exact if_pos ⟨rfl, hmlock⟩

theorem pin_failure_returns_zero_amended_witness :
    jni_c_allocate ⟨3, 0, some 4096, 1, 0, 0, some 81920⟩ 64 false true = 0 ∧
    smart_c_allocate ⟨3, 0, some 4096, 1, 0, 0, some 81920⟩ 64 false true = 0 :=
  pin_failure_returns_zero_amended ⟨3, 0, some 4096, 1, 0, 0, some 81920⟩ 64
    81920 rfl (by decide)

/-- C4: on the success path, `virt2phys` computes the page index
`address / base_page_size`, reads the page-table entry at byte offset
`page_index * native_address_width` of the pagemap, extracts the frame number
as the low 55 bits of the entry, and returns
`frame_number * base_page_size + address % base_page_size`; the `memory`
module's variant, which computes the offset as `address & (pagesize - 1)`,
agrees whenever the page size is a power of two. -/
theorem virt2phys_formula :
    ∀ (pm : Mem) (pagesize addr : Nat),
      0 < pagesize →
      (pagemapEntry pm (addr / pagesize * address_size) % 2 ^ 55) * pagesize
          + addr % pagesize < 2 ^ 64 →
      c_virt2phys pm pagesize addr =
        (pagemapEntry pm (addr / pagesize * address_size) % 2 ^ 55) * pagesize
          + addr % pagesize ∧
      ∀ k, pagesize = 2 ^ k →
        c_virt2phys_mem pm pagesize addr = c_virt2phys pm pagesize addr := by
  intro pm pagesize addr hpos hbound
  have hmask : (0x7fffffffffffff : Nat) = 2 ^ 55 - 1 := by norm_num
  constructor
  · rw [c_virt2phys, hmask, Nat.and_pow_two_sub_one_eq_mod]
    exact Nat.mod_eq_of_lt hbound
  · intro k hk
    subst hk
    rw [c_virt2phys_mem, c_virt2phys, Nat.and_pow_two_sub_one_eq_mod]

theorem virt2phys_formula_witness :
    c_virt2phys (fun _ => 0) 4096 12345 =
      (pagemapEntry (fun _ => 0) (12345 / 4096 * address_size) % 2 ^ 55) * 4096
        + 12345 % 4096 :=
  (virt2phys_formula (fun _ => 0) 4096 12345 (by norm_num) (by decide)).1

/-- C5 counterexample: with the hugetlbfs mount present and `/proc/meminfo`
containing the line `Hugepagesize: 0 kB`, the huge-page-size field is found,
yet the function still returns `0` — refuting "returns 0 only when the field
cannot be found". -/
theorem hugepage_size_zero_field_counterexample :
    c_hugepage_size (some [⟨"hugetlbfs", "/mnt/huge", "hugetlbfs"⟩])
        (some [some ("Hugepagesize:", 0, "kB")]) = 0 ∧
    findHugeLine [some ("Hugepagesize:", 0, "kB")] = some (0, "kB") :=
  ⟨rfl, rfl⟩

/-- C5 amended: when the mount table cannot be read or the designated
hugetlbfs mount is absent, `c_1hugepage_1size` returns `-1` and never `0`;
it returns `0` only when the mount exists and either the memory-info text
cannot be read, the `Hugepagesize:` field is not found in it, or the field is
present with a value that scales to `0`. -/
theorem hugepage_size_sentinels_amended :
    ∀ (mtab : Option (List Mntent))
      (meminfo : Option (List (Option (String × Int × String)))),
      (mtab = none → c_hugepage_size mtab meminfo = -1) ∧
      (∀ entries, mtab = some entries → mountFound entries = false →
          c_hugepage_size mtab meminfo = -1) ∧
      (c_hugepage_size mtab meminfo = 0 →
        ∃ entries, mtab = some entries ∧ mountFound entries = true ∧
          (meminfo = none ∨
            ∃ lines, meminfo = some lines ∧
              (findHugeLine lines = none ∨
                ∃ v mult, findHugeLine lines = some (v, mult) ∧
                  applyMultiplier v mult = 0))) := by
  intro mtab meminfo
  refine ⟨fun h => ?_, fun entries h hnf => ?_, fun h0 => ?_⟩
  · subst h
    simp [c_hugepage_size]
  · subst h
    simp [c_hugepage_size, hnf]
  · rcases mtab with _ | entries
    · simp only [c_hugepage_size] at h0
      exact absurd h0 (by decide)
    · by_cases hmf : mountFound entries = false
      · simp only [c_hugepage_size, hmf, if_pos] at h0
        exact absurd h0 (by decide)
      · simp only [c_hugepage_size, if_neg hmf] at h0
        refine ⟨entries, rfl, by simpa using hmf, ?_⟩
        rcases meminfo with _ | lines
        · exact Or.inl rfl
        · refine Or.inr ⟨lines, rfl, ?_⟩
          rcases hfl : findHugeLine lines with _ | ⟨v, mult⟩
          · exact Or.inl rfl
          · simp only [hfl] at h0
            exact Or.inr ⟨v, mult, rfl, h0⟩

theorem hugepage_size_sentinels_amended_witness :
    c_hugepage_size none none = -1 :=
  (hugepage_size_sentinels_amended none none).1 rfl

/-! ## The huge-page identifier counter -/

theorem counterAfter_eq (n : Nat) : counterAfter n = n % 2 ^ 32 := by
  induction n with
  | zero => rfl
  | succ k ih =>
    rw [counterAfter, ih, Nat.mod_add_mod]

/-- C6 counterexample: the counter is a 32-bit `unsigned int`, so it wraps:
allocation number `2 ^ 32` draws identifier `0` again and builds exactly the
same backing-file name as allocation number `0` of the same process —
refuting "never reused" and "no two huge-page allocations in a process ever
produce the same backing-file name". -/
theorem hugepage_name_wraparound_counterexample :
    hugepagePath "/mnt/huge" 42 4294967296 = hugepagePath "/mnt/huge" 42 0 ∧
    (4294967296 : Nat) ≠ 0 := by
  constructor
  · unfold hugepagePath idOfAlloc
    rw [counterAfter_eq, counterAfter_eq]
    norm_num
  · norm_num

/-- C6 amended: the counter is incremented exactly once per huge-page
allocation and never reset, and the backing-file name embeds the process id
together with the drawn identifier; since the counter is a 32-bit unsigned
integer it wraps modulo `2 ^ 32`, so any two distinct allocations among the
first `2 ^ 32` of a process produce distinct backing-file names (collisions
only become possible once the counter wraps). -/
theorem hugepage_name_unique_amended :
    ∀ (mnt : String) (pid : Int) (i j : Nat),
      i < 2 ^ 32 → j < 2 ^ 32 → i ≠ j →
      hugepagePath mnt pid i ≠ hugepagePath mnt pid j := by
  intro mnt pid i j hi hj hne heq
  unfold hugepagePath idOfAlloc at heq
  rw [counterAfter_eq, counterAfter_eq, Nat.mod_eq_of_lt hi,
    Nat.mod_eq_of_lt hj] at heq
  have h3 : int32Of i = int32Of j := by
    simpa using congrArg (fun p => p.2.2) heq
  unfold int32Of at h3
  split_ifs at h3 <;> omega

theorem hugepage_name_unique_amended_witness :
    hugepagePath "/mnt/huge" 42 0 ≠ hugepagePath "/mnt/huge" 42 1 :=
  hugepage_name_unique_amended "/mnt/huge" 42 0 1 (by norm_num) (by norm_num)
    (by norm_num)

/-- C7: for every width in {8, 16, 32, 64} bits, every address, and every
value in the width's range, a store followed by a load at the same address
returns exactly the stored value. -/
theorem store_load_roundtrip_all_widths :
    ∀ (m : Mem) (a : Nat),
      (∀ v, v < 2 ^ 8 → c_get_byte (c_put_byte m a v) a = v) ∧
      (∀ v, v < 2 ^ 16 → c_get_short (c_put_short m a v) a = v) ∧
      (∀ v, v < 2 ^ 32 → c_get_int (c_put_int m a v) a = v) ∧
      (∀ v, v < 2 ^ 64 → c_get_long (c_put_long m a v) a = v) := by
  intro m a
  refine ⟨fun v hv => ?_, fun v hv => ?_, fun v hv => ?_, fun v hv => ?_⟩
  · rw [c_get_byte, c_put_byte, load_store_roundtrip,
      show (256 : Nat) ^ 1 = 2 ^ 8 by norm_num]
    exact Nat.mod_eq_of_lt hv
  · rw [c_get_short, c_put_short, load_store_roundtrip,
      show (256 : Nat) ^ 2 = 2 ^ 16 by norm_num]
    exact Nat.mod_eq_of_lt hv
  · rw [c_get_int, c_put_int, load_store_roundtrip,
      show (256 : Nat) ^ 4 = 2 ^ 32 by norm_num]
    exact Nat.mod_eq_of_lt hv
  · rw [c_get_long, c_put_long, load_store_roundtrip,
      show (256 : Nat) ^ 8 = 2 ^ 64 by norm_num]
    exact Nat.mod_eq_of_lt hv

theorem store_load_roundtrip_all_widths_witness :
    c_get_long (c_put_long (fun _ => 0) 3 81985529216486895) 3
      = 81985529216486895 :=
  (store_load_roundtrip_all_widths (fun _ => 0) 3).2.2.2 81985529216486895
    (by norm_num)

/-- C8: for every width, `get_and_add` returns the pre-update value, and a
subsequent load returns the old value plus the addend, reduced modulo
`2 ^ w`. -/
theorem get_and_add_correct_all_widths :
    ∀ (m : Mem) (a v : Nat),
      ((c_get_and_add_byte m a v).1 = c_get_byte m a ∧
        c_get_byte (c_get_and_add_byte m a v).2 a
          = (c_get_byte m a + v) % 2 ^ 8) ∧
      ((c_get_and_add_short m a v).1 = c_get_short m a ∧
        c_get_short (c_get_and_add_short m a v).2 a
          = (c_get_short m a + v) % 2 ^ 16) ∧
      ((c_get_and_add_int m a v).1 = c_get_int m a ∧
        c_get_int (c_get_and_add_int m a v).2 a
          = (c_get_int m a + v) % 2 ^ 32) ∧
      ((c_get_and_add_long m a v).1 = c_get_long m a ∧
        c_get_long (c_get_and_add_long m a v).2 a
          = (c_get_long m a + v) % 2 ^ 64) := by
  intro m a v
  refine ⟨⟨rfl, ?_⟩, ⟨rfl, ?_⟩, ⟨rfl, ?_⟩, ⟨rfl, ?_⟩⟩
  · rw [c_get_byte, c_get_and_add_byte, load_store_roundtrip,
      show (256 : Nat) ^ 1 = 2 ^ 8 by norm_num]
    exact Nat.mod_mod_of_dvd _ dvd_rfl
  · rw [c_get_short, c_get_and_add_short, load_store_roundtrip,
      show (256 : Nat) ^ 2 = 2 ^ 16 by norm_num]
    exact Nat.mod_mod_of_dvd _ dvd_rfl
  · rw [c_get_int, c_get_and_add_int, load_store_roundtrip,
      show (256 : Nat) ^ 4 = 2 ^ 32 by norm_num]
    exact Nat.mod_mod_of_dvd _ dvd_rfl
  · rw [c_get_long, c_get_and_add_long, load_store_roundtrip,
      show (256 : Nat) ^ 8 = 2 ^ 64 by norm_num]
    exact Nat.mod_mod_of_dvd _ dvd_rfl

/-! ## Copy loop versus bulk copy -/

theorem c_copy_volatile_eq_c_copy :
    ∀ (size : Nat) (m : Mem) (src dst : Nat),
      dst + size ≤ src ∨ src + size ≤ dst →
      c_copy_volatile m src size dst = c_copy m src size dst := by
  intro size
  induction size with
  | zero =>
    intro m src dst h
    funext x
    simp only [c_copy_volatile, c_copy]
    rw [if_neg (by omega)]
  | succ n ih =>
    intro m src dst h
    rw [c_copy_volatile, ih (writeByte m dst (m src)) (src + 1) (dst + 1) (by omega)]
    funext x
    simp only [c_copy]
    by_cases hx1 : dst + 1 ≤ x ∧ x < dst + 1 + n
    · rw [if_pos hx1, if_pos (by omega : dst ≤ x ∧ x < dst + (n + 1))]
      have hidx : src + 1 + (x - (dst + 1)) = src + (x - dst) := by omega
      rw [hidx, writeByte_ne _ _ _ _ (by omega)]
    · by_cases hx2 : dst ≤ x ∧ x < dst + (n + 1)
      · have hxd : x = dst := by omega
        rw [if_neg hx1, if_pos hx2]
        have hi2 : src + (x - dst) = src := by omega
        rw [hi2]
        simp [writeByte, hxd]
      · rw [if_neg hx1, if_neg hx2, writeByte_ne _ _ _ _ (by omega)]

/-- C10: under sequential semantics every volatile/fenced accessor variant of
the two modules returns the same result and produces the same final memory as
its plain counterpart — the plain/volatile loads and stores, the
read-modify-write helpers of all four widths, and the byte-at-a-time volatile
copy versus the bulk `memcpy` on non-overlapping ranges. -/
theorem volatile_variants_equivalent :
    (∀ (m : Mem) (a : Nat),
        c_get_byte_volatile m a = c_get_byte m a ∧
        c_get_short_volatile m a = c_get_short m a ∧
        c_get_int_volatile m a = c_get_int m a ∧
        c_get_long_volatile m a = c_get_long m a ∧
        ixy_c_get_byte_volatile m a = c_get_byte m a ∧
        ixy_c_get_short_volatile m a = c_get_short m a ∧
        ixy_c_get_int_volatile m a = c_get_int m a ∧
        ixy_c_get_long_volatile m a = c_get_long m a) ∧
    (∀ (m : Mem) (a v : Nat),
        c_put_byte_volatile m a v = c_put_byte m a v ∧
        c_put_short_volatile m a v = c_put_short m a v ∧
        c_put_int_volatile m a v = c_put_int m a v ∧
        c_put_long_volatile m a v = c_put_long m a v ∧
        ixy_c_put_byte_volatile m a v = c_put_byte m a v ∧
        ixy_c_put_short_volatile m a v = c_put_short m a v ∧
        ixy_c_put_int_volatile m a v = c_put_int m a v ∧
        ixy_c_put_long_volatile m a v = c_put_long m a v ∧
        c_get_and_put_byte_volatile m a v = c_get_and_put_byte m a v ∧
        c_get_and_put_short_volatile m a v = c_get_and_put_short m a v ∧
        c_get_and_put_int_volatile m a v = c_get_and_put_int m a v ∧
        c_get_and_put_long_volatile m a v = c_get_and_put_long m a v ∧
        c_add_byte_volatile m a v = c_add_byte m a v ∧
        c_add_short_volatile m a v = c_add_short m a v ∧
        c_add_int_volatile m a v = c_add_int m a v ∧
        c_add_long_volatile m a v = c_add_long m a v ∧
        c_get_and_add_byte_volatile m a v = c_get_and_add_byte m a v ∧
        c_get_and_add_short_volatile m a v = c_get_and_add_short m a v ∧
        c_get_and_add_int_volatile m a v = c_get_and_add_int m a v ∧
        c_get_and_add_long_volatile m a v = c_get_and_add_long m a v ∧
        c_add_and_get_byte_volatile m a v = c_add_and_get_byte m a v ∧
        c_add_and_get_short_volatile m a v = c_add_and_get_short m a v ∧
        c_add_and_get_int_volatile m a v = c_add_and_get_int m a v ∧
        c_add_and_get_long_volatile m a v = c_add_and_get_long m a v) ∧
    (∀ (m : Mem) (src size dst : Nat),
        dst + size ≤ src ∨ src + size ≤ dst →
        c_copy_volatile m src size dst = c_copy m src size dst) :=
  ⟨fun _ _ => ⟨rfl, rfl, rfl, rfl, rfl, rfl, rfl, rfl⟩,
    fun _ _ _ => ⟨rfl, rfl, rfl, rfl, rfl, rfl, rfl, rfl, rfl, rfl, rfl, rfl,
      rfl, rfl, rfl, rfl, rfl, rfl, rfl, rfl, rfl, rfl, rfl, rfl⟩,
    fun m src size dst h => c_copy_volatile_eq_c_copy size m src dst h⟩

theorem volatile_variants_equivalent_witness :
    ((8 : Nat) + 4 ≤ 20 ∨ (20 : Nat) + 4 ≤ 8) ∧
      c_copy_volatile (fun _ => 0) 20 4 8 = c_copy (fun _ => 0) 20 4 8 :=
  ⟨Or.inl (by norm_num),
    volatile_variants_equivalent.2.2 (fun _ => 0) 20 4 8 (Or.inl (by norm_num))⟩

end Ixy
